import Mathlib

/-!
Verification of the akd-watch auditor core against its specification.

The development is a shallow embedding of the Rust sources:
  * `crates/common/src/versions.rs`          — `Epoch`, `Ciphersuite`
  * `crates/common/src/namespace_info.rs`    — `NamespaceStatus`, `NamespaceInfo`
  * `crates/common/src/crypto.rs`            — `SigningKey`, `VerifyingKey`
  * `crates/common/src/epoch_signature.rs`   — `EpochSignature`, sign / verify
  * `crates/common/src/storage/...`          — namespace / signature / signing-key
    repositories (the in-memory and on-disk realizations share the map
    semantics embedded here; file persistence is modelled as the same map)
  * `crates/auditor/src/config.rs`           — `resolve_status_transition`,
    `to_namespace_info`
  * `crates/auditor/src/namespace_auditor.rs` — the audit loop

Modelling conventions:
  * Machine integers (`u64` epochs) are `Nat`; timestamps are `Int`.
  * Ed25519 is modelled symbolically: a signature records the signer's public
    key and the signed message, and verification checks both.  Key generation
    draws from a fresh-identifier counter standing in for the UUIDv4 / random
    key generator, and the public key of a generated key is its identifier.
  * The external AKD library calls (`has_proof`, `get_proof_name`, `get_proof`,
    `AuditBlob::decode`, `verify_consecutive_append_only`) are an oracle
    (`AkdEnv`); the spec scopes them out as external collaborators.
  * Async executions are sequentialized: each repository operation is a pure
    state transformer.
-/

namespace AkdWatch

/-- Epochs: monotone `u64` sequence numbers (`versions.rs`). -/
abbrev Epoch := Nat

/-- `Epoch::next` from `versions.rs`: `Epoch(self.0 + 1)`. -/
def Epoch.next (e : Epoch) : Epoch := e + 1

/-- Byte-sequence digests; the AKD commitment is 32 bytes. -/
abbrev Digest := List Nat

/-- `AkdConfiguration` from `akd_configurations.rs`. -/
inductive AkdConfiguration where
  | WhatsAppV1Configuration
  | BitwardenV1Configuration
  | TestConfiguration
deriving DecidableEq, Repr

/-- `NamespaceStatus` from `namespace_info.rs`. -/
inductive NamespaceStatus where
  | Online
  | Initialization
  | Disabled
  | SignatureLost
  | SignatureVerificationFailed
deriving DecidableEq, Repr

/-- `NamespaceStatus::is_active` from `namespace_info.rs`. -/
def NamespaceStatus.is_active : NamespaceStatus → Bool
  | .Online => true
  | .Initialization => true
  | _ => false

/-- `NamespaceInfo` from `namespace_info.rs`. -/
structure NamespaceInfo where
  configuration : AkdConfiguration
  name : String
  log_directory : String
  last_verified_epoch : Option Epoch
  starting_epoch : Epoch
  status : NamespaceStatus
deriving DecidableEq, Repr

/-- `NamespaceInfo::update_last_verified_epoch`. -/
def NamespaceInfo.update_last_verified_epoch (i : NamespaceInfo) (e : Epoch) :
    NamespaceInfo :=
  { i with last_verified_epoch := some e }

/-- `NamespaceInfo::update_status`. -/
def NamespaceInfo.update_status (i : NamespaceInfo) (s : NamespaceStatus) :
    NamespaceInfo :=
  { i with status := s }

/-- `AkdConfigurationType` from `crates/auditor/src/config.rs`. -/
inductive AkdConfigurationType where
  | WhatsAppV1
  | BitwardenV1
deriving DecidableEq, Repr

/-- `ConfigNamespaceStatus` from `crates/auditor/src/config.rs`. -/
inductive ConfigNamespaceStatus where
  | Online
  | Disabled
deriving DecidableEq, Repr

/-- `NamespaceConfig` from `crates/auditor/src/config.rs`. -/
structure NamespaceConfig where
  name : String
  configuration_type : AkdConfigurationType
  log_directory : String
  starting_epoch : Epoch
  status : ConfigNamespaceStatus
deriving DecidableEq, Repr

/-- `NamespaceConfig::resolve_status_transition` from
`crates/auditor/src/config.rs` (lines 209-231): error states are preserved and
never count as changes; a new namespace takes the configured status without
counting as a change; every other state transitions to the configured status,
with `changed` iff it differs. -/
def resolve_status_transition (config_status : ConfigNamespaceStatus)
    (existing_status : Option NamespaceStatus) : NamespaceStatus × Bool :=
  let desired_status : NamespaceStatus :=
    match config_status with
    | .Online => .Online
    | .Disabled => .Disabled
  match existing_status with
  | none => (desired_status, false)
  | some .SignatureLost => (.SignatureLost, false)
  | some .SignatureVerificationFailed => (.SignatureVerificationFailed, false)
  | some current_status => (desired_status, current_status != desired_status)

/-- `NamespaceConfig::to_namespace_info` from `crates/auditor/src/config.rs`
(lines 178-204).  The source targets an older `NamespaceInfo` whose
`last_verified_epoch` is a mandatory `Epoch` and which has no
`starting_epoch` field; it computes
`existing.map(|i| i.last_verified_epoch).unwrap_or(starting_epoch)` and never
consults `starting_epoch` against an existing epoch.  Embedded here against
the current `NamespaceInfo`: the always-present epoch becomes `some`, and
`starting_epoch` is carried over from the config.  The `Result` return of the
source is dropped because no branch produces an error. -/
def NamespaceConfig.to_namespace_info (cfg : NamespaceConfig)
    (existing_namespace_info : Option NamespaceInfo) : NamespaceInfo × Bool :=
  let configuration : AkdConfiguration :=
    match cfg.configuration_type with
    | .WhatsAppV1 => .WhatsAppV1Configuration
    | .BitwardenV1 => .BitwardenV1Configuration
  let resolved :=
    resolve_status_transition cfg.status
      (existing_namespace_info.map (fun i => i.status))
  let last_verified_epoch : Option Epoch :=
    match existing_namespace_info with
    | some info => info.last_verified_epoch
    | none => some cfg.starting_epoch
  ({ configuration := configuration
     name := cfg.name
     log_directory := cfg.log_directory
     last_verified_epoch := last_verified_epoch
     starting_epoch := cfg.starting_epoch
     status := resolved.1 },
   resolved.2)

/-- `Ciphersuite` from `versions.rs`; the `u32` discriminant space is open. -/
inductive Ciphersuite where
  | ProtobufEd25519
  | BincodeEd25519
  | Unknown (value : Nat)
deriving DecidableEq, Repr

/-- `Ciphersuite::default` is `ProtobufEd25519`. -/
def Ciphersuite.default : Ciphersuite := .ProtobufEd25519

/-- `SerializationError` from `error.rs`, restricted to the variant reachable
from `EpochSignedMessage::to_vec`. -/
inductive SerializationError where
  | UnknownFormat (value : Nat)
deriving DecidableEq, Repr

/-- `crypto.rs::SigningKey`.  The Ed25519 secret is symbolic: `secret`
identifies the keypair, and the derived public key equals `secret`.  Fresh
generation (UUIDv4 plus a random secret) is determinized by a counter carried
in the repository state; a generated key has `secret = key_id = counter`. -/
structure SigningKey where
  secret : Nat
  key_id : Nat
  created_at : Int
  not_after_date : Int
deriving DecidableEq, Repr

/-- `crypto.rs::VerifyingKey`; `verifying_key` is the symbolic public key. -/
structure VerifyingKey where
  verifying_key : Nat
  key_id : Nat
  not_before : Int
deriving DecidableEq, Repr

/-- `SigningKey::verifying_key`. -/
def SigningKey.verifying_key (k : SigningKey) : VerifyingKey :=
  { verifying_key := k.secret, key_id := k.key_id, not_before := k.created_at }

/-- `SigningKey::is_expired`: `now > not_after_date` (time passed explicitly). -/
def SigningKey.is_expired (k : SigningKey) (now : Int) : Bool :=
  now > k.not_after_date

/-- `SigningKey::expire`: set `not_after_date := now`. -/
def SigningKey.expire (k : SigningKey) (now : Int) : SigningKey :=
  { k with not_after_date := now }

/-- `SigningKey::generate` with the fresh-identifier counter made explicit. -/
def SigningKey.generate (lifetime : Int) (now : Int) (fresh : Nat) : SigningKey :=
  { secret := fresh
    key_id := fresh
    created_at := now
    not_after_date := now + lifetime }

/-- The canonical signed payload (`epoch_signature.rs::EpochSignedMessage`).
The source field `namespace` is a Lean keyword and is embedded as `ns`. -/
structure EpochSignedMessage where
  ciphersuite : Ciphersuite
  ns : String
  timestamp : Int
  epoch : Epoch
  digest : Digest
deriving DecidableEq, Repr

/-- `EpochSignedMessage::to_vec`: the canonical protobuf / bincode encodings
are injective, so the serialized bytes are modelled by the message itself;
an `Unknown` ciphersuite fails with `UnknownFormat` as in the source. -/
def EpochSignedMessage.to_vec (m : EpochSignedMessage) :
    Except SerializationError EpochSignedMessage :=
  match m.ciphersuite with
  | .ProtobufEd25519 => .ok m
  | .BincodeEd25519 => .ok m
  | .Unknown v => .error (.UnknownFormat v)

/-- A symbolic Ed25519 signature: the signer's public key and the signed
serialized message.  `ed25519_dalek` verification succeeds exactly when the
signature was produced by the key matching the resolved public key over the
same bytes (perfect-cryptography assumption; the 64-byte length check of
`Signature::from_bytes` has no counterpart on symbolic signatures). -/
structure Ed25519Signature where
  signer_public : Nat
  message : EpochSignedMessage
deriving DecidableEq, Repr

/-- `epoch_signature.rs::EpochSignatureV1`. -/
structure EpochSignatureV1 where
  ciphersuite : Ciphersuite
  ns : String
  timestamp : Int
  epoch : Epoch
  digest : Digest
  signature : Ed25519Signature
  key_id : Nat
deriving DecidableEq, Repr

/-- `epoch_signature.rs::VerifyError`, minus the length variant (see
`Ed25519Signature`) and with the repository error collapsed to a tag. -/
inductive VerifyError where
  | SignatureVerificationFailed
  | SerializationError (e : SerializationError)
  | VerifyingKeyNotFound (key_id : Nat)
deriving DecidableEq, Repr

/-- `EpochSignatureV1::to_message`. -/
def EpochSignatureV1.to_message (s : EpochSignatureV1) : EpochSignedMessage :=
  { ciphersuite := s.ciphersuite
    ns := s.ns
    timestamp := s.timestamp
    epoch := s.epoch
    digest := s.digest }

/-- `EpochSignatureV1::verify` against a resolved verifying key. -/
def EpochSignatureV1.verify (s : EpochSignatureV1) (vk : VerifyingKey) :
    Except VerifyError Unit :=
  match s.to_message.to_vec with
  | .error e => .error (.SerializationError e)
  | .ok message =>
    if s.signature.signer_public = vk.verifying_key ∧ s.signature.message = message
    then .ok ()
    else .error .SignatureVerificationFailed

/-- `epoch_signature.rs::EpochSignature`: a versioned envelope. -/
inductive EpochSignature where
  | V1 (s : EpochSignatureV1)
deriving DecidableEq, Repr

/-- `EpochSignature::digest`. -/
def EpochSignature.digest : EpochSignature → Digest
  | .V1 s => s.digest

/-- `EpochSignature::signing_key_id`. -/
def EpochSignature.signing_key_id : EpochSignature → Nat
  | .V1 s => s.key_id

/-- `EpochSignature::epoch_root_hash`: `digest.as_slice().try_into()` into a
32-byte array succeeds exactly when the stored digest has 32 bytes. -/
def EpochSignature.epoch_root_hash (s : EpochSignature) : Option Digest :=
  if s.digest.length = 32 then some s.digest else none

/-- `SignError` from `epoch_signature.rs`. -/
inductive SignError where
  | SerializationError (e : SerializationError)
deriving DecidableEq, Repr

/-- `EpochSignature::sign` (the `chrono::Utc::now()` timestamp is passed
explicitly as `now`). -/
def EpochSignature.sign (info : NamespaceInfo) (epoch : Epoch)
    (epoch_root_hash : Digest) (now : Int) (signing_key : SigningKey) :
    Except SignError EpochSignature :=
  let message : EpochSignedMessage :=
    { ciphersuite := Ciphersuite.default
      ns := info.name
      timestamp := now
      epoch := epoch
      digest := epoch_root_hash }
  match message.to_vec with
  | .error e => .error (.SerializationError e)
  | .ok serialized =>
    .ok (.V1
      { ciphersuite := message.ciphersuite
        ns := message.ns
        timestamp := message.timestamp
        epoch := message.epoch
        digest := message.digest
        signature := { signer_public := signing_key.secret, message := serialized }
        key_id := signing_key.key_id })

/-- A verifying-key repository view: the list of keys, looked up by `key_id`
through a map built by inserting in list order (a later entry with the same id
wins, as in `HashMap::insert`). -/
def lookup_verifying_key (keys : List VerifyingKey) (key_id : Nat) :
    Option VerifyingKey :=
  keys.reverse.find? (fun k => k.key_id == key_id)

/-- `EpochSignature::verify` against a verifying-key repository. -/
def EpochSignature.verify (s : EpochSignature) (repo : List VerifyingKey) :
    Except VerifyError Unit :=
  match lookup_verifying_key repo s.signing_key_id with
  | none => .error (.VerifyingKeyNotFound s.signing_key_id)
  | some vk =>
    match s with
    | .V1 v => v.verify vk

/-- The guarded key state shared by `InMemorySigningKeyRepository` and
`FileSigningKeyRepository` (`KeyState` in both sources). -/
structure KeyState where
  current_signing_key : SigningKey
  expired_keys : List SigningKey
deriving DecidableEq, Repr

/-- A signing-key repository: the key state, the configured lifetime, and the
fresh-identifier counter determinizing key generation.  The file realization
additionally persists the state on every rotation; persistence is modelled as
the state itself. -/
structure SigningKeyRepo where
  keys : KeyState
  key_lifetime : Int
  fresh : Nat
deriving DecidableEq, Repr

/-- `InMemorySigningKeyRepository::new` / `FileSigningKeyRepository::new` on a
missing key file: generate an initial key. -/
def SigningKeyRepo.new (key_lifetime : Int) (now : Int) : SigningKeyRepo :=
  { keys :=
      { current_signing_key := SigningKey.generate key_lifetime now 0
        expired_keys := [] }
    key_lifetime := key_lifetime
    fresh := 1 }

/-- `InMemorySigningKeyRepository::get_current_signing_key` (lines 59-78):
if the current key is expired, replace it with a freshly generated key and
push the old current key (unchanged, keeping its `key_id`) onto
`expired_keys`; return the resulting current key. -/
def get_current_signing_key (now : Int) (r : SigningKeyRepo) :
    SigningKeyRepo × SigningKey :=
  if r.keys.current_signing_key.is_expired now then
    let new_key := SigningKey.generate r.key_lifetime now r.fresh
    ({ keys :=
         { current_signing_key := new_key
           expired_keys := r.keys.expired_keys ++ [r.keys.current_signing_key] }
       key_lifetime := r.key_lifetime
       fresh := r.fresh + 1 },
     new_key)
  else
    (r, r.keys.current_signing_key)

/-- `InMemorySigningKeyRepository::force_key_rotation` (lines 80-93) and
`FileSigningKeyRepository::rotate_signing_key` (lines 103-120): replace the
current key with a fresh one, expire the old key (`not_after := now`, keeping
its `key_id`), retain it, and (for the file realization) persist. -/
def force_key_rotation (now : Int) (r : SigningKeyRepo) : SigningKeyRepo :=
  let new_key := SigningKey.generate r.key_lifetime now r.fresh
  { keys :=
      { current_signing_key := new_key
        expired_keys := r.keys.expired_keys ++ [r.keys.current_signing_key.expire now] }
    key_lifetime := r.key_lifetime
    fresh := r.fresh + 1 }

/-- `FileSigningKeyRepository::get_current_signing_key` (lines 141-157):
rotate via `rotate_signing_key` when the current key is expired, otherwise
return the current key unchanged. -/
def file_get_current_signing_key (now : Int) (r : SigningKeyRepo) :
    SigningKeyRepo × SigningKey :=
  if r.keys.current_signing_key.is_expired now then
    let rotated := force_key_rotation now r
    (rotated, rotated.keys.current_signing_key)
  else
    (r, r.keys.current_signing_key)

/-- All signing keys held by a repository (current plus retired). -/
def SigningKeyRepo.all_keys (r : SigningKeyRepo) : List SigningKey :=
  r.keys.current_signing_key :: r.keys.expired_keys

/-- `InMemorySigningKeyRepository::verifying_key_repository` (lines 95-115):
the current key's verifying key followed by those of the expired keys.  (The
file realization lists expired keys first; with the last-match lookup both
orders resolve the same ids.) -/
def verifying_key_repository (r : SigningKeyRepo) : List VerifyingKey :=
  r.keys.current_signing_key.verifying_key ::
    r.keys.expired_keys.map (fun k => k.verifying_key)

/-- `FileSigningKeyRepository`'s verifying projection (`KeyState::to_verifying_keys`):
expired keys first, then the current key. -/
def file_verifying_key_repository (r : SigningKeyRepo) : List VerifyingKey :=
  r.keys.expired_keys.map (fun k => k.verifying_key) ++
    [r.keys.current_signing_key.verifying_key]

/-- A `key_id` is resolvable through a verifying-key repository view. -/
def resolvable (keys : List VerifyingKey) (key_id : Nat) : Bool :=
  (lookup_verifying_key keys key_id).isSome

/-- `NamespaceRepositoryError` from `storage/namespaces/mod.rs`, restricted to
the variant the in-memory map semantics can produce. -/
inductive NamespaceRepositoryError where
  | NamespaceNotFound (name : String)
deriving DecidableEq, Repr

/-- The namespace-name → `NamespaceInfo` map backing both
`InMemoryNamespaceRepository` and `FileNamespaceRepository` (the latter also
rewrites its JSON document on every mutation; persistence is modelled as the
map itself). -/
def NamespaceRepoMap := String → Option NamespaceInfo

/-- `get_namespace_info`: map lookup. -/
def get_namespace_info (m : NamespaceRepoMap) (name : String) :
    Option NamespaceInfo :=
  m name

/-- `add_namespace` from `in_memory_namespace_repository.rs` (lines 46-53) and
`file_namespace_repository.rs` (lines 85-91): an unconditional
`HashMap::insert` followed by `Ok(())`. -/
def add_namespace (m : NamespaceRepoMap) (info : NamespaceInfo) :
    Except NamespaceRepositoryError NamespaceRepoMap :=
  .ok (fun n => if n = info.name then some info else m n)

/-- `update_namespace` (both realizations): replace when present, otherwise
`NamespaceNotFound`. -/
def update_namespace (m : NamespaceRepoMap) (info : NamespaceInfo) :
    Except NamespaceRepositoryError NamespaceRepoMap :=
  match m info.name with
  | some _ => .ok (fun n => if n = info.name then some info else m n)
  | none => .error (.NamespaceNotFound info.name)

/-- `remove_namespace` (both realizations): remove when present, otherwise
`NamespaceNotFound`. -/
def remove_namespace (m : NamespaceRepoMap) (name : String) :
    Except NamespaceRepositoryError NamespaceRepoMap :=
  match m name with
  | some _ => .ok (fun n => if n = name then none else m n)
  | none => .error (.NamespaceNotFound name)

/-- `SerializableAuditBlobName` from `audit_blob_name.rs`: the untrusted
triple announced by the AKD. -/
structure SerializableAuditBlobName where
  epoch : Epoch
  previous_hash : Digest
  current_hash : Digest
deriving DecidableEq, Repr

/-- An opaque append-only proof blob (akd library data). -/
abbrev Proof := Nat

/-- An opaque downloaded audit blob (akd library data). -/
abbrev AuditBlob := Nat

/-- Oracle for the external AKD directory and the akd cryptographic library:
`has_proof`, `get_proof_name` and `get_proof` of the `AkdStorage` trait,
`AuditBlob::decode` (yielding end epoch, self-reported previous hash, end
hash, proof) and `verify_consecutive_append_only`. -/
structure AkdEnv where
  has_proof : Epoch → Bool
  get_proof_name : Epoch → Option SerializableAuditBlobName
  get_proof : SerializableAuditBlobName → Option AuditBlob
  decode : AuditBlob → Option (Epoch × Digest × Digest × Proof)
  verify_consecutive_append_only :
    AkdConfiguration → Proof → Digest → Digest → Epoch → Bool

/-- `AuditError` from `crates/auditor/src/error.rs`, with the variants that
carry external library data collapsed to tags. -/
inductive AuditError where
  | SignatureNotFound (epoch : Epoch)
  | StorageError
  | VerifyError (e : VerifyError)
  | LocalAuditorError
  | BlobHashParseError
  | AkdVerificationError
  | SignError (e : SignError)
  | NamespaceRepositoryError (e : NamespaceRepositoryError)
deriving DecidableEq, Repr

/-- The mutable state a `NamespaceAuditor` acts on: the shared namespace
repository, the shared signing-key repository, and its per-namespace
signature repository (`Epoch → Option EpochSignature`, the in-memory map
semantics of `SignatureRepository`). -/
structure AuditorState where
  namespace_repository : NamespaceRepoMap
  signing_key_repository : SigningKeyRepo
  signature_storage : Epoch → Option EpochSignature

/-- `NamespaceAuditor::get_and_verify_signature` (`namespace_auditor.rs`
lines 369-383): fetch the stored signature for the epoch and verify it
against the signing-key repository's verifying view; `Ok(None)` when absent,
the verification error when present but invalid. -/
def get_and_verify_signature (st : AuditorState) (epoch : Epoch) :
    Except AuditError (Option EpochSignature) :=
  match st.signature_storage epoch with
  | some signature =>
    match signature.verify (verifying_key_repository st.signing_key_repository) with
    | .ok _ => .ok (some signature)
    | .error e => .error (.VerifyError e)
  | none => .ok none

/-- The `previous_hash` let-binding of `NamespaceAuditor::verify_blob`
(`namespace_auditor.rs` lines 406-426): for the starting epoch, the previous
hash decoded from the blob itself; otherwise the re-verified stored signature
at `epoch - 1` supplies the anchor via `epoch_root_hash`. -/
def compute_previous_hash (st : AuditorState) (blob_name : SerializableAuditBlobName)
    (info : NamespaceInfo) (previous_hash_from_blob : Digest) :
    Except AuditError Digest :=
  if blob_name.epoch = info.starting_epoch then
    .ok previous_hash_from_blob
  else
    let previous_epoch := blob_name.epoch - 1
    match get_and_verify_signature st previous_epoch with
    | .error e => .error e
    | .ok none => .error (.SignatureNotFound previous_epoch)
    | .ok (some previous_signature) =>
      match previous_signature.epoch_root_hash with
      | some d => .ok d
      | none => .error .BlobHashParseError

/-- `NamespaceAuditor::verify_blob` (`namespace_auditor.rs` lines 385-439):
download, decode, establish the chained previous hash, then call
`verify_consecutive_append_only` with it. -/
def verify_blob (akd : AkdEnv) (st : AuditorState)
    (blob_name : SerializableAuditBlobName) (info : NamespaceInfo) :
    Except AuditError Unit := do
  let audit_blob ←
    match akd.get_proof blob_name with
    | some b => Except.ok b
    | none => Except.error AuditError.StorageError
  let (end_epoch, previous_hash_from_blob, end_hash, proof) ←
    match akd.decode audit_blob with
    | some q => Except.ok q
    | none => Except.error AuditError.LocalAuditorError
  let previous_hash ← compute_previous_hash st blob_name info previous_hash_from_blob
  if akd.verify_consecutive_append_only info.configuration proof
      previous_hash end_hash end_epoch
  then .ok ()
  else .error .AkdVerificationError

/-- `NamespaceAuditor::sign_blob` (`namespace_auditor.rs` lines 441-472):
obtain the current signing key (rotating it if expired), sign
`(info, blob.epoch, blob.current_hash)`, and store the signature. -/
def sign_blob (now : Int) (st : AuditorState)
    (blob_name : SerializableAuditBlobName) (info : NamespaceInfo) :
    Except AuditError AuditorState :=
  let rotated := get_current_signing_key now st.signing_key_repository
  match EpochSignature.sign info blob_name.epoch blob_name.current_hash now rotated.2 with
  | .error e => .error (.SignError e)
  | .ok signature =>
    .ok { st with
          signing_key_repository := rotated.1
          signature_storage := fun e =>
            if e = blob_name.epoch then some signature else st.signature_storage e }

/-- `NamespaceAuditor::process_audit_request` (`namespace_auditor.rs`
lines 332-365): skip epochs before the starting epoch; skip (after
re-verification) epochs that already carry a stored signature; otherwise
verify the blob and sign it. -/
def process_audit_request (akd : AkdEnv) (now : Int) (st : AuditorState)
    (blob_name : SerializableAuditBlobName) (info : NamespaceInfo) :
    Except AuditError AuditorState :=
  if blob_name.epoch < info.starting_epoch then
    .ok st
  else
    match get_and_verify_signature st blob_name.epoch with
    | .error e => .error e
    | .ok (some _) => .ok st
    | .ok none =>
      match verify_blob akd st blob_name info with
      | .error e => .error e
      | .ok _ => sign_blob now st blob_name info

/-- `NamespaceAuditor::handle_audit_failure` (`namespace_auditor.rs`
lines 226-267): `SignatureNotFound` maps the namespace status to
`SignatureLost`; every other audit error maps it to
`SignatureVerificationFailed`. -/
def handle_audit_failure (st : AuditorState) (info : NamespaceInfo)
    (error : AuditError) : Except NamespaceRepositoryError AuditorState :=
  match error with
  | .SignatureNotFound _ =>
    match update_namespace st.namespace_repository
        (info.update_status .SignatureLost) with
    | .ok m => .ok { st with namespace_repository := m }
    | .error e => .error e
  | _ =>
    match update_namespace st.namespace_repository
        (info.update_status .SignatureVerificationFailed) with
    | .ok m => .ok { st with namespace_repository := m }
    | .error e => .error e

/-- The status `handle_audit_failure` writes for an audit error. -/
def failure_status : AuditError → NamespaceStatus
  | .SignatureNotFound _ => .SignatureLost
  | _ => .SignatureVerificationFailed

/-- `MAX_EPOCHS_PER_POLL` (`namespace_auditor.rs` line 21). -/
def MAX_EPOCHS_PER_POLL : Nat := 50

/-- The starting point of `NamespaceAuditor::poll_for_new_epochs`
(`namespace_auditor.rs` lines 291-295): `last_verified_epoch.next()` when
present, otherwise `starting_epoch`. -/
def poll_start (info : NamespaceInfo) : Epoch :=
  match info.last_verified_epoch with
  | some last_verified_epoch => last_verified_epoch.next
  | none => info.starting_epoch

/-- The polling loop of `poll_for_new_epochs` (`namespace_auditor.rs`
lines 298-325).  The source appends while `result.len() < MAX_EPOCHS_PER_POLL`
and both `has_proof` and `get_proof_name` succeed; the remaining capacity
`MAX_EPOCHS_PER_POLL - result.len()` is the structural fuel. -/
def poll_loop (akd : AkdEnv) : Nat → Epoch → List SerializableAuditBlobName
  | 0, _ => []
  | fuel + 1, next_epoch =>
    if akd.has_proof next_epoch then
      match akd.get_proof_name next_epoch with
      | some proof_name => proof_name :: poll_loop akd fuel next_epoch.next
      | none => []
    else []

/-- `NamespaceAuditor::poll_for_new_epochs` (`namespace_auditor.rs`
lines 284-327). -/
def poll_for_new_epochs (akd : AkdEnv) (info : NamespaceInfo) :
    List SerializableAuditBlobName :=
  poll_loop akd MAX_EPOCHS_PER_POLL (poll_start info)

/-- The per-blob loop of `NamespaceAuditor::run_audit_cycle`
(`namespace_auditor.rs` lines 185-221): on a processing error, run
`handle_audit_failure` (its own failure is only logged) and stop with an
error; on success, record the audit by writing
`info.update_last_verified_epoch(blob.epoch)` and continue.  The returned
flag is true when the cycle ends in an error. -/
def process_blob_list (akd : AkdEnv) (now : Int) (st : AuditorState)
    (info : NamespaceInfo) :
    List SerializableAuditBlobName → AuditorState × Bool
  | [] => (st, false)
  | blob_name :: rest =>
    match process_audit_request akd now st blob_name info with
    | .error e =>
      match handle_audit_failure st info e with
      | .ok st2 => (st2, true)
      | .error _ => (st, true)
    | .ok st2 =>
      match update_namespace st2.namespace_repository
          (info.update_last_verified_epoch blob_name.epoch) with
      | .ok m => process_blob_list akd now { st2 with namespace_repository := m } info rest
      | .error _ => (st2, true)

/-- `NamespaceAuditor::run_audit_cycle` (`namespace_auditor.rs`
lines 140-224): refresh the namespace info (error when missing), refuse to
audit inactive namespaces (error), poll, process each blob.  `none` is the
error outcome; `some n` the processed count. -/
def run_audit_cycle (akd : AkdEnv) (now : Int) (st : AuditorState)
    (namespace_name : String) : AuditorState × Option Nat :=
  match get_namespace_info st.namespace_repository namespace_name with
  | none => (st, none)
  | some namespace_info =>
    if namespace_info.status.is_active then
      let blob_names := poll_for_new_epochs akd namespace_info
      let processed := process_blob_list akd now st namespace_info blob_names
      if processed.2 then (processed.1, none) else (processed.1, some blob_names.length)
    else (st, none)

/-- The worker loop of `NamespaceAuditor::run` / `audit_cycle`
(`namespace_auditor.rs` lines 59-101), with the interruptible sleep elided:
an erroring cycle signals shutdown and the loop breaks; otherwise the loop
continues (bounded here by fuel). -/
def run_worker (akd : AkdEnv) (now : Int) :
    Nat → AuditorState → String → AuditorState
  | 0, st, _ => st
  | fuel + 1, st, namespace_name =>
    match run_audit_cycle akd now st namespace_name with
    | (st2, none) => st2
    | (st2, some _) => run_worker akd now fuel st2 namespace_name

/-- States of one namespace worker reachable by the audit loop: an initial
state (fresh signing-key repository, empty signature store, any namespace
repository), closed under full audit cycles, the signing steps the loop is
built from, and operator-forced key rotation. -/
inductive Reachable : AuditorState → Prop where
  | init (key_lifetime now : Int) (m : NamespaceRepoMap) :
      Reachable
        { namespace_repository := m
          signing_key_repository := SigningKeyRepo.new key_lifetime now
          signature_storage := fun _ => none }
  | sign (now : Int) (st st' : AuditorState) (blob_name : SerializableAuditBlobName)
      (info : NamespaceInfo) :
      Reachable st → sign_blob now st blob_name info = .ok st' → Reachable st'
  | cycle (akd : AkdEnv) (now : Int) (st : AuditorState) (namespace_name : String) :
      Reachable st → Reachable (run_audit_cycle akd now st namespace_name).1
  | rotate (now : Int) (st : AuditorState) :
      Reachable st →
      Reachable { st with
        signing_key_repository := force_key_rotation now st.signing_key_repository }

/-- Well-formedness of a signing-key repository: every held key was produced
by the determinized generator, so its identifier lies below the counter. -/
def SigningKeyRepo.wf (r : SigningKeyRepo) : Prop :=
  ∀ k ∈ r.all_keys, k.key_id < r.fresh

/-- Every held key is generator-produced: its symbolic secret is its id. -/
def keys_standard (r : SigningKeyRepo) : Prop :=
  ∀ k ∈ r.all_keys, k.secret = k.key_id

/-- A stored signature is one produced by `EpochSignature::sign` with a key
the repository still holds. -/
def sig_well_signed (r : SigningKeyRepo) : EpochSignature → Prop
  | .V1 v =>
    v.ciphersuite = .ProtobufEd25519 ∧
    v.signature.signer_public = v.key_id ∧
    v.signature.message = v.to_message ∧
    ∃ k ∈ r.all_keys, k.key_id = v.key_id

/-- The audit-loop invariant behind claim C2: keys are generator-produced and
every stored signature was signed by a retained key. -/
def StoreInv (st : AuditorState) : Prop :=
  keys_standard st.signing_key_repository ∧
  ∀ e s, st.signature_storage e = some s →
    sig_well_signed st.signing_key_repository s

/-- Concrete namespace info used by witnesses: online, trust anchor at 0,
nothing audited yet. -/
def example_info : NamespaceInfo :=
  { configuration := .TestConfiguration
    name := "test"
    log_directory := "dir"
    last_verified_epoch := none
    starting_epoch := 0
    status := .Online }

/-- Concrete audit blob name for epoch 0. -/
def example_blob : SerializableAuditBlobName :=
  { epoch := 0
    previous_hash := List.replicate 32 0
    current_hash := List.replicate 32 7 }

/-- Concrete worker state: `example_info` registered, fresh signing key
(lifetime 100 from time 0), no signatures. -/
def example_state0 : AuditorState :=
  { namespace_repository := fun n => if n = "test" then some example_info else none
    signing_key_repository := SigningKeyRepo.new 100 0
    signature_storage := fun _ => none }

/-- The signature `sign_blob 1 example_state0 example_blob example_info`
produces. -/
def example_sig : EpochSignature :=
  .V1
    { ciphersuite := .ProtobufEd25519
      ns := "test"
      timestamp := 1
      epoch := 0
      digest := List.replicate 32 7
      signature :=
        { signer_public := 0
          message :=
            { ciphersuite := .ProtobufEd25519
              ns := "test"
              timestamp := 1
              epoch := 0
              digest := List.replicate 32 7 } }
      key_id := 0 }

/-- `example_state0` after signing epoch 0. -/
def example_state1 : AuditorState :=
  { namespace_repository := fun n => if n = "test" then some example_info else none
    signing_key_repository := SigningKeyRepo.new 100 0
    signature_storage := fun e => if e = 0 then some example_sig else none }

/-- Concrete AKD oracle: proofs exist for epochs 0 and 1, names echo the
queried epoch, blobs decode to a proof the verifier accepts. -/
def example_env : AkdEnv :=
  { has_proof := fun e => decide (e < 2)
    get_proof_name := fun e =>
      some { epoch := e, previous_hash := [0], current_hash := [e] }
    get_proof := fun _ => some 0
    decode := fun _ => some (0, List.replicate 32 0, List.replicate 32 7, 0)
    verify_consecutive_append_only := fun _ _ _ _ _ => true }

/-- Concrete AKD oracle with every proof available. -/
def example_env_all : AkdEnv :=
  { has_proof := fun _ => true
    get_proof_name := fun e =>
      some { epoch := e, previous_hash := [0], current_hash := [e] }
    get_proof := fun _ => some 0
    decode := fun _ => some (0, List.replicate 32 0, List.replicate 32 7, 0)
    verify_consecutive_append_only := fun _ _ _ _ _ => true }

/-- Configuration whose reconciliation exercises the claimed
`last_verified_epoch` reset: configured anchor 10. -/
def reconcile_cfg : NamespaceConfig :=
  { name := "ns"
    configuration_type := .WhatsAppV1
    log_directory := "logs"
    starting_epoch := 10
    status := .Online }

/-- Existing repository entry with `last_verified_epoch` strictly below the
newly configured anchor of `reconcile_cfg`. -/
def reconcile_existing : NamespaceInfo :=
  { configuration := .WhatsAppV1Configuration
    name := "ns"
    log_directory := "logs"
    last_verified_epoch := some 5
    starting_epoch := 5
    status := .Online }

/-- Configuration of a brand-new namespace with anchor 5. -/
def fresh_cfg : NamespaceConfig :=
  { name := "fresh"
    configuration_type := .BitwardenV1
    log_directory := "d"
    starting_epoch := 5
    status := .Online }

/-- Existing entries for the repository-operation examples. -/
def repo_info_a : NamespaceInfo :=
  { configuration := .WhatsAppV1Configuration
    name := "ns"
    log_directory := "a"
    last_verified_epoch := none
    starting_epoch := 0
    status := .Online }

/-- A different record under the same name as `repo_info_a`. -/
def repo_info_b : NamespaceInfo :=
  { configuration := .WhatsAppV1Configuration
    name := "ns"
    log_directory := "b"
    last_verified_epoch := some 3
    starting_epoch := 0
    status := .Disabled }

/-- A record under a name the example map does not hold. -/
def repo_info_c : NamespaceInfo :=
  { configuration := .BitwardenV1Configuration
    name := "other"
    log_directory := "c"
    last_verified_epoch := none
    starting_epoch := 0
    status := .Online }

/-- Example namespace map holding exactly `repo_info_a`. -/
def example_repo_map : NamespaceRepoMap :=
  fun n => if n = "ns" then some repo_info_a else none

/-- The signature `EpochSignature::sign` produces for the default
ciphersuite, written out. -/
def signed_epoch_signature (info : NamespaceInfo) (epoch : Epoch) (d : Digest)
    (now : Int) (key : SigningKey) : EpochSignature :=
  .V1
    { ciphersuite := .ProtobufEd25519
      ns := info.name
      timestamp := now
      epoch := epoch
      digest := d
      signature :=
        { signer_public := key.secret
          message :=
            { ciphersuite := .ProtobufEd25519
              ns := info.name
              timestamp := now
              epoch := epoch
              digest := d } }
      key_id := key.key_id }

/-! ## Helper lemmas -/

/-- A `key_id` is resolvable through a repository view iff some listed key
carries it. -/
theorem resolvable_iff (keys : List VerifyingKey) (key_id : Nat) :
    resolvable keys key_id = true ↔ ∃ k ∈ keys, k.key_id = key_id := by
  unfold resolvable lookup_verifying_key
  rw [List.find?_isSome]
  constructor
  · rintro ⟨k, hk, hp⟩
    exact ⟨k, List.mem_reverse.mp hk, by simpa using hp⟩
  · rintro ⟨k, hk, hp⟩
    exact ⟨k, List.mem_reverse.mpr hk, by simpa using hp⟩

/-- A successful lookup returns a listed key carrying the requested id. -/
theorem lookup_verifying_key_spec (keys : List VerifyingKey) (key_id : Nat)
    (vk : VerifyingKey) (h : lookup_verifying_key keys key_id = some vk) :
    vk ∈ keys ∧ vk.key_id = key_id := by
  unfold lookup_verifying_key at h
  exact ⟨List.mem_reverse.mp (List.mem_of_find?_eq_some h),
    by simpa using List.find?_some h⟩

/-- The first name a non-empty poll returns is the proof name of the start
epoch. -/
theorem poll_loop_head (akd : AkdEnv) (fuel : Nat) (start : Epoch)
    (b : SerializableAuditBlobName) (rest : List SerializableAuditBlobName)
    (h : poll_loop akd fuel start = b :: rest) :
    akd.get_proof_name start = some b := by
  cases fuel with
  | zero => simp [poll_loop] at h
  | succ n =>
    unfold poll_loop at h
    cases hp : akd.has_proof start with
    | false => rw [hp] at h; simp at h
    | true =>
      rw [hp] at h
      cases hn : akd.get_proof_name start with
      | none => rw [hn] at h; simp at h
      | some proof_name =>
        rw [hn] at h
        simp only [cond_true] at h
        injection h with h1 _
        rw [h1]

/-! ## Claim theorems -/

/-- C3: status reconciliation never overwrites a sticky failure status.  For
every configured status, an existing `SignatureLost` or
`SignatureVerificationFailed` status is returned unchanged with
`changed = false`, and a new namespace adopts the configured status with
`changed = false`. -/
theorem claim_C3_sticky_failure_status (config_status : ConfigNamespaceStatus) :
    (∀ st : NamespaceStatus,
        st = .SignatureLost ∨ st = .SignatureVerificationFailed →
        resolve_status_transition config_status (some st) = (st, false)) ∧
    resolve_status_transition config_status none =
      ((match config_status with
        | .Online => NamespaceStatus.Online
        | .Disabled => NamespaceStatus.Disabled),
       false) := by
  refine ⟨?_, ?_⟩
  · rintro st (rfl | rfl) <;> cases config_status <;> rfl
  · cases config_status <;> rfl

/-- Witness for C3 at concrete statuses. -/
theorem claim_C3_sticky_failure_status_witness :
    resolve_status_transition .Online (some .SignatureLost) =
      (.SignatureLost, false) ∧
    resolve_status_transition .Disabled (some .SignatureVerificationFailed) =
      (.SignatureVerificationFailed, false) :=
  ⟨(claim_C3_sticky_failure_status .Online).1 _ (Or.inl rfl),
   (claim_C3_sticky_failure_status .Disabled).1 _ (Or.inr rfl)⟩

/-- C5 counterexample: an existing entry with `last_verified_epoch = some 5`,
strictly below the configured `starting_epoch = 10`, is passed through
`to_namespace_info`, yet the result keeps `some 5` (it is not reset to
`none`) and reports `changed = false` — refuting the claimed reset. -/
theorem claim_C5_counterexample :
    reconcile_existing.last_verified_epoch = some 5 ∧
    reconcile_cfg.starting_epoch = 10 ∧
    ¬ ((reconcile_cfg.to_namespace_info
          (some reconcile_existing)).1.last_verified_epoch = none ∧
       (reconcile_cfg.to_namespace_info (some reconcile_existing)).2 = true) := by
  decide

/-- C5 amended: `to_namespace_info` never resets `last_verified_epoch`.  With
an existing entry it preserves the stored epoch unchanged — regardless of the
configured `starting_epoch` — and `changed` reflects only the status
transition; for a new namespace it sets `last_verified_epoch` to
`some starting_epoch`. -/
theorem claim_C5_no_reset (cfg : NamespaceConfig) (existing : NamespaceInfo) :
    (cfg.to_namespace_info (some existing)).1.last_verified_epoch =
      existing.last_verified_epoch ∧
    (cfg.to_namespace_info (some existing)).2 =
      (resolve_status_transition cfg.status (some existing.status)).2 ∧
    (cfg.to_namespace_info none).1.last_verified_epoch =
      some cfg.starting_epoch :=
  ⟨rfl, rfl, rfl⟩

/-- C6 counterexample: a namespace constructed fresh from a configuration
with `starting_epoch = 5` carries `last_verified_epoch = some 5`, so polling
begins at epoch 6 — the first polled proof (with every proof available) is
for epoch 6, not the configured starting epoch 5. -/
theorem claim_C6_counterexample :
    fresh_cfg.starting_epoch = 5 ∧
    (fresh_cfg.to_namespace_info none).1.last_verified_epoch = some 5 ∧
    poll_start (fresh_cfg.to_namespace_info none).1 = 6 ∧
    ((poll_for_new_epochs example_env_all
        (fresh_cfg.to_namespace_info none).1).head?).map (fun b => b.epoch) =
      some 6 ∧
    (6 : Nat) ≠ fresh_cfg.starting_epoch := by
  decide

/-- C6 amended: `poll_for_new_epochs` begins at `last_verified_epoch.next()`
when present and at `starting_epoch` otherwise; a worker whose namespace info
has no `last_verified_epoch` polls `starting_epoch` first.  A namespace
constructed fresh from configuration, however, carries
`last_verified_epoch = some starting_epoch`, so its first polled epoch is
`starting_epoch + 1`. -/
theorem claim_C6_poll_start (akd : AkdEnv) (info : NamespaceInfo)
    (cfg : NamespaceConfig) :
    (info.last_verified_epoch = none →
        poll_start info = info.starting_epoch ∧
        ∀ b rest, poll_for_new_epochs akd info = b :: rest →
          akd.get_proof_name info.starting_epoch = some b) ∧
    (∀ e, info.last_verified_epoch = some e → poll_start info = e + 1) ∧
    (cfg.to_namespace_info none).1.last_verified_epoch =
      some cfg.starting_epoch ∧
    poll_start (cfg.to_namespace_info none).1 = cfg.starting_epoch + 1 := by
  refine ⟨?_, ?_, rfl, rfl⟩
  · intro h
    have hs : poll_start info = info.starting_epoch := by
      unfold poll_start; rw [h]
    refine ⟨hs, ?_⟩
    intro b rest hpoll
    unfold poll_for_new_epochs at hpoll
    rw [hs] at hpoll
    exact poll_loop_head akd MAX_EPOCHS_PER_POLL info.starting_epoch b rest hpoll
  · intro e h
    unfold poll_start
    rw [h]
    rfl

/-- Witness for C6 (amended) at a concrete environment and namespace. -/
theorem claim_C6_poll_start_witness :
    example_env.get_proof_name example_info.starting_epoch =
      some { epoch := 0, previous_hash := [0], current_hash := [0] } :=
  ((claim_C6_poll_start example_env example_info fresh_cfg).1 rfl).2
    { epoch := 0, previous_hash := [0], current_hash := [0] }
    [{ epoch := 1, previous_hash := [0], current_hash := [1] }]
    (by decide)

/-- C8 counterexample: `add_namespace` on a name that already exists does not
fail; it returns `Ok` and replaces the existing entry. -/
theorem claim_C8_counterexample :
    example_repo_map "ns" = some repo_info_a ∧
    repo_info_b.name = "ns" ∧
    repo_info_a ≠ repo_info_b ∧
    ∃ m2, add_namespace example_repo_map repo_info_b = .ok m2 ∧
      m2 "ns" = some repo_info_b :=
  ⟨rfl, rfl, by decide, _, rfl, by decide⟩

/-- C8 amended: `add_namespace` inserts unconditionally (overwriting any
existing entry and returning `Ok`); `update_namespace` fails with
`NamespaceNotFound` when the name is absent and otherwise replaces the entry;
`remove_namespace` fails with `NamespaceNotFound` when the name is absent and
otherwise removes the entry. -/
theorem claim_C8_repository_semantics (m : NamespaceRepoMap)
    (info : NamespaceInfo) (name : String) :
    (∃ m2, add_namespace m info = .ok m2 ∧ m2 info.name = some info ∧
        ∀ n, n ≠ info.name → m2 n = m n) ∧
    (m info.name = none →
        update_namespace m info = .error (.NamespaceNotFound info.name)) ∧
    (∀ i0, m info.name = some i0 →
        ∃ m2, update_namespace m info = .ok m2 ∧ m2 info.name = some info ∧
          ∀ n, n ≠ info.name → m2 n = m n) ∧
    (m name = none →
        remove_namespace m name = .error (.NamespaceNotFound name)) ∧
    (∀ i0, m name = some i0 →
        ∃ m2, remove_namespace m name = .ok m2 ∧ m2 name = none ∧
          ∀ n, n ≠ name → m2 n = m n) := by
  refine ⟨⟨_, rfl, by simp, fun n hn => by simp [hn]⟩, ?_, ?_, ?_, ?_⟩
  · intro h
    unfold update_namespace
    rw [h]
  · intro i0 h
    unfold update_namespace
    rw [h]
    exact ⟨_, rfl, by simp, fun n hn => by simp [hn]⟩
  · intro h
    unfold remove_namespace
    rw [h]
  · intro i0 h
    unfold remove_namespace
    rw [h]
    exact ⟨_, rfl, by simp, fun n hn => by simp [hn]⟩

/-- Witness for C8 (amended) at concrete inputs. -/
theorem claim_C8_repository_semantics_witness :
    update_namespace example_repo_map repo_info_c =
      .error (.NamespaceNotFound repo_info_c.name) ∧
    remove_namespace example_repo_map "other" =
      .error (.NamespaceNotFound "other") := by
  have h := claim_C8_repository_semantics example_repo_map repo_info_c "other"
  exact ⟨h.2.1 (by decide), h.2.2.2.1 (by decide)⟩

/-- Full characterization of the polling loop: at most `fuel` names are
returned; the `i`-th name is the proof name of the `i`-th consecutive epoch
from the start; and an early stop happens exactly at the first epoch with no
proof or with a failing name retrieval. -/
theorem poll_loop_spec (akd : AkdEnv) (fuel : Nat) : ∀ (start : Epoch),
    (poll_loop akd fuel start).length ≤ fuel ∧
    (∀ i (h : i < (poll_loop akd fuel start).length),
        akd.has_proof (start + i) = true ∧
        akd.get_proof_name (start + i) =
          some ((poll_loop akd fuel start).get ⟨i, h⟩)) ∧
    ((poll_loop akd fuel start).length < fuel →
        akd.has_proof (start + (poll_loop akd fuel start).length) = false ∨
        akd.get_proof_name (start + (poll_loop akd fuel start).length) = none) := by
  induction fuel with
  | zero =>
    intro start
    refine ⟨Nat.le_refl 0, ?_, ?_⟩
    · intro i h
      exact absurd h (by simp [poll_loop])
    · intro h
      exact absurd h (by simp [poll_loop])
  | succ n ih =>
    intro start
    cases hp : akd.has_proof start with
    | false =>
      have he : poll_loop akd (n + 1) start = [] := by
        simp [poll_loop, hp]
      rw [he]
      refine ⟨Nat.zero_le _, ?_, ?_⟩
      · intro i h
        exact absurd h (by simp)
      · intro _
        simp only [List.length_nil, Nat.add_zero]
        exact Or.inl hp
    | true =>
      cases hn : akd.get_proof_name start with
      | none =>
        have he : poll_loop akd (n + 1) start = [] := by
          simp [poll_loop, hp, hn]
        rw [he]
        refine ⟨Nat.zero_le _, ?_, ?_⟩
        · intro i h
          exact absurd h (by simp)
        · intro _
          simp only [List.length_nil, Nat.add_zero]
          exact Or.inr hn
      | some proof_name =>
        have he : poll_loop akd (n + 1) start =
            proof_name :: poll_loop akd n (start + 1) := by
          simp [poll_loop, hp, hn, Epoch.next]
        rw [he]
        obtain ⟨ihlen, ihget, ihstop⟩ := ih (start + 1)
        refine ⟨?_, ?_, ?_⟩
        · simpa using Nat.succ_le_succ ihlen
        · intro i h
          cases i with
          | zero =>
            rw [Nat.add_zero]
            exact ⟨hp, by rw [hn]; rfl⟩
          | succ j =>
            have hj : j < (poll_loop akd n (start + 1)).length := by
              simpa using Nat.lt_of_succ_lt_succ h
            have harith : start + (j + 1) = (start + 1) + j := by
              rw [Nat.add_comm j 1]
              exact (Nat.add_assoc start 1 j).symm
            rw [harith]
            exact ⟨(ihget j hj).1, (ihget j hj).2⟩
        · intro h
          have hlt : (poll_loop akd n (start + 1)).length < n := by
            simpa using Nat.lt_of_succ_lt_succ h
          have harith : start + ((poll_loop akd n (start + 1)).length + 1) =
              (start + 1) + (poll_loop akd n (start + 1)).length := by
            rw [Nat.add_comm ((poll_loop akd n (start + 1)).length) 1]
            exact (Nat.add_assoc start 1 ((poll_loop akd n (start + 1)).length)).symm
          simpa [harith] using ihstop hlt

/-- C7: a poll returns at most `MAX_EPOCHS_PER_POLL = 50` blob names; the
`i`-th returned name is the AKD's proof name for the `i`-th consecutive epoch
from the first unaudited epoch; the poll stops early exactly at the first
epoch whose proof is absent or whose name cannot be retrieved; and whenever
the AKD reports faithful names, the returned names carry consecutive
epochs. -/
theorem claim_C7_poll_bounds (akd : AkdEnv) (info : NamespaceInfo) :
    (poll_for_new_epochs akd info).length ≤ MAX_EPOCHS_PER_POLL ∧
    (∀ i (h : i < (poll_for_new_epochs akd info).length),
        akd.has_proof (poll_start info + i) = true ∧
        akd.get_proof_name (poll_start info + i) =
          some ((poll_for_new_epochs akd info).get ⟨i, h⟩)) ∧
    ((poll_for_new_epochs akd info).length < MAX_EPOCHS_PER_POLL →
        akd.has_proof
          (poll_start info + (poll_for_new_epochs akd info).length) = false ∨
        akd.get_proof_name
          (poll_start info + (poll_for_new_epochs akd info).length) = none) ∧
    ((∀ e b, akd.get_proof_name e = some b → b.epoch = e) →
        ∀ i (h : i < (poll_for_new_epochs akd info).length),
          ((poll_for_new_epochs akd info).get ⟨i, h⟩).epoch =
            poll_start info + i) := by
  obtain ⟨hlen, hget, hstop⟩ := poll_loop_spec akd MAX_EPOCHS_PER_POLL (poll_start info)
  refine ⟨hlen, hget, hstop, ?_⟩
  intro hfaithful i h
  exact hfaithful _ _ (hget i h).2

/-- Witness for C7 at a concrete environment and namespace. -/
theorem claim_C7_poll_bounds_witness :
    (poll_for_new_epochs example_env example_info).length ≤ MAX_EPOCHS_PER_POLL ∧
    example_env.has_proof (poll_start example_info + 0) = true := by
  have h := claim_C7_poll_bounds example_env example_info
  exact ⟨h.1, (h.2.1 0 (by decide)).1⟩

/-- C9: re-processing a blob whose epoch (at or past the trust anchor)
already has a stored signature is a no-op when that signature still
verifies — the call returns `Ok` with the state unchanged, and its outcome is
independent of the AKD oracle and the clock (nothing is downloaded, verified
or signed); when the stored signature fails verification, the verification
error is returned instead. -/
theorem claim_C9_idempotent (akd akd2 : AkdEnv) (now now2 : Int)
    (st : AuditorState) (blob : SerializableAuditBlobName)
    (info : NamespaceInfo) (s : EpochSignature)
    (hstart : info.starting_epoch ≤ blob.epoch)
    (hstore : st.signature_storage blob.epoch = some s) :
    (s.verify (verifying_key_repository st.signing_key_repository) = .ok () →
        process_audit_request akd now st blob info = .ok st ∧
        process_audit_request akd now st blob info =
          process_audit_request akd2 now2 st blob info) ∧
    (∀ e, s.verify (verifying_key_repository st.signing_key_repository) = .error e →
        process_audit_request akd now st blob info = .error (.VerifyError e)) := by
  have hlt : ¬ blob.epoch < info.starting_epoch := Nat.not_lt.mpr hstart
  constructor
  · intro hv
    have h1 : ∀ (a : AkdEnv) (t : Int),
        process_audit_request a t st blob info = .ok st := by
      intro a t
      simp only [process_audit_request, get_and_verify_signature, if_neg hlt,
        hstore, hv]
    exact ⟨h1 akd now, (h1 akd now).trans (h1 akd2 now2).symm⟩
  · intro e hv
    simp only [process_audit_request, get_and_verify_signature, if_neg hlt,
      hstore, hv]

/-- Witness for C9 at a state holding a freshly produced valid signature. -/
theorem claim_C9_idempotent_witness :
    process_audit_request example_env 5 example_state1 example_blob example_info =
      .ok example_state1 :=
  ((claim_C9_idempotent example_env example_env_all 5 7 example_state1
      example_blob example_info example_sig (Nat.le_refl 0) rfl).1 rfl).1

/-- Resolvability through the in-memory view (current first, then retired)
reduces to holding a key with the id. -/
theorem resolvable_view_iff (cur : SigningKey) (expired : List SigningKey)
    (key_id : Nat) :
    resolvable (cur.verifying_key :: expired.map (fun k => k.verifying_key))
        key_id = true ↔
      (cur.key_id = key_id ∨ ∃ k ∈ expired, k.key_id = key_id) := by
  rw [resolvable_iff]
  constructor
  · rintro ⟨vk, hmem, hid⟩
    rcases List.mem_cons.mp hmem with h | h
    · left
      rw [h] at hid
      exact hid
    · rcases List.mem_map.mp h with ⟨k, hk, hvk⟩
      right
      refine ⟨k, hk, ?_⟩
      rw [← hvk] at hid
      exact hid
  · rintro (h | ⟨k, hk, hid⟩)
    · exact ⟨cur.verifying_key, List.mem_cons_self _ _, h⟩
    · exact ⟨k.verifying_key,
        List.mem_cons.mpr (Or.inr (List.mem_map.mpr ⟨k, hk, rfl⟩)), hid⟩

/-- Resolvability through the on-disk projection (retired first, then
current) reduces to the same condition. -/
theorem resolvable_file_view_iff (cur : SigningKey) (expired : List SigningKey)
    (key_id : Nat) :
    resolvable (expired.map (fun k => k.verifying_key) ++ [cur.verifying_key])
        key_id = true ↔
      (cur.key_id = key_id ∨ ∃ k ∈ expired, k.key_id = key_id) := by
  rw [resolvable_iff]
  constructor
  · rintro ⟨vk, hmem, hid⟩
    rcases List.mem_append.mp hmem with h | h
    · rcases List.mem_map.mp h with ⟨k, hk, hvk⟩
      right
      refine ⟨k, hk, ?_⟩
      rw [← hvk] at hid
      exact hid
    · left
      rw [List.mem_singleton.mp h] at hid
      exact hid
  · rintro (h | ⟨k, hk, hid⟩)
    · exact ⟨cur.verifying_key,
        List.mem_append.mpr (Or.inr (List.mem_singleton.mpr rfl)), h⟩
    · exact ⟨k.verifying_key,
        List.mem_append.mpr (Or.inl (List.mem_map.mpr ⟨k, hk, rfl⟩)), hid⟩

/-- C10: signing-key lifecycle.  `get_current_signing_key` returns the
current key and an unchanged repository when the key is not expired; when it
is expired (and under `force_key_rotation` / the file realization's
`rotate_signing_key` unconditionally) the old current key moves into the
retired set keeping its original `key_id`, a freshly generated key becomes
current and is returned; in a well-formed repository the new current key's id
differs from the rotated key's id, and every previously resolvable `key_id`
remains resolvable through both verifying-key views after rotation. -/
theorem claim_C10_key_lifecycle (now : Int) (r : SigningKeyRepo) :
    (r.keys.current_signing_key.is_expired now = false →
        get_current_signing_key now r = (r, r.keys.current_signing_key) ∧
        file_get_current_signing_key now r = (r, r.keys.current_signing_key)) ∧
    (r.keys.current_signing_key.is_expired now = true →
        get_current_signing_key now r =
          ({ keys :=
               { current_signing_key := SigningKey.generate r.key_lifetime now r.fresh
                 expired_keys :=
                   r.keys.expired_keys ++ [r.keys.current_signing_key] }
             key_lifetime := r.key_lifetime
             fresh := r.fresh + 1 },
           SigningKey.generate r.key_lifetime now r.fresh) ∧
        file_get_current_signing_key now r =
          (force_key_rotation now r,
           (force_key_rotation now r).keys.current_signing_key)) ∧
    (force_key_rotation now r).keys.current_signing_key =
      SigningKey.generate r.key_lifetime now r.fresh ∧
    (force_key_rotation now r).keys.expired_keys =
      r.keys.expired_keys ++ [r.keys.current_signing_key.expire now] ∧
    (r.keys.current_signing_key.expire now).key_id =
      r.keys.current_signing_key.key_id ∧
    (r.wf →
        (SigningKey.generate r.key_lifetime now r.fresh).key_id ≠
          r.keys.current_signing_key.key_id) ∧
    (∀ key_id, resolvable (verifying_key_repository r) key_id = true →
        resolvable (verifying_key_repository (force_key_rotation now r))
          key_id = true ∧
        resolvable (file_verifying_key_repository (force_key_rotation now r))
          key_id = true ∧
        (r.keys.current_signing_key.is_expired now = true →
          resolvable
            (verifying_key_repository (get_current_signing_key now r).1)
            key_id = true)) := by
  refine ⟨?_, ?_, rfl, rfl, rfl, ?_, ?_⟩
  · intro h
    constructor
    · simp [get_current_signing_key, h]
    · simp [file_get_current_signing_key, h]
  · intro h
    constructor
    · simp [get_current_signing_key, h]
    · simp [file_get_current_signing_key, h]
  · intro hwf heq
    have hlt : r.keys.current_signing_key.key_id < r.fresh :=
      hwf r.keys.current_signing_key (List.mem_cons_self _ _)
    rw [show (SigningKey.generate r.key_lifetime now r.fresh).key_id = r.fresh
        from rfl] at heq
    omega
  · intro key_id h
    have hold := (resolvable_view_iff r.keys.current_signing_key
      r.keys.expired_keys key_id).mp h
    have hnew : (SigningKey.generate r.key_lifetime now r.fresh).key_id = key_id ∨
        ∃ k ∈ r.keys.expired_keys ++ [r.keys.current_signing_key.expire now],
          k.key_id = key_id := by
      rcases hold with h1 | ⟨k, hk, hid⟩
      · exact Or.inr ⟨r.keys.current_signing_key.expire now,
          List.mem_append.mpr (Or.inr (List.mem_singleton.mpr rfl)), h1⟩
      · exact Or.inr ⟨k, List.mem_append.mpr (Or.inl hk), hid⟩
    refine ⟨?_, ?_, ?_⟩
    · rw [show verifying_key_repository (force_key_rotation now r) =
          (SigningKey.generate r.key_lifetime now r.fresh).verifying_key ::
            (r.keys.expired_keys ++
              [r.keys.current_signing_key.expire now]).map
              (fun k => k.verifying_key) from rfl]
      exact (resolvable_view_iff _ _ _).mpr hnew
    · rw [show file_verifying_key_repository (force_key_rotation now r) =
          (r.keys.expired_keys ++
              [r.keys.current_signing_key.expire now]).map
              (fun k => k.verifying_key) ++
            [(SigningKey.generate r.key_lifetime now r.fresh).verifying_key]
          from rfl]
      exact (resolvable_file_view_iff _ _ _).mpr hnew
    · intro hexp
      have hrot : (get_current_signing_key now r).1.keys =
          { current_signing_key := SigningKey.generate r.key_lifetime now r.fresh
            expired_keys :=
              r.keys.expired_keys ++ [r.keys.current_signing_key] } := by
        simp [get_current_signing_key, hexp]
      have hnew2 : (SigningKey.generate r.key_lifetime now r.fresh).key_id = key_id ∨
          ∃ k ∈ r.keys.expired_keys ++ [r.keys.current_signing_key],
            k.key_id = key_id := by
        rcases hold with h1 | ⟨k, hk, hid⟩
        · exact Or.inr ⟨r.keys.current_signing_key,
            List.mem_append.mpr (Or.inr (List.mem_singleton.mpr rfl)), h1⟩
        · exact Or.inr ⟨k, List.mem_append.mpr (Or.inl hk), hid⟩
      rw [show verifying_key_repository (get_current_signing_key now r).1 =
          (get_current_signing_key now r).1.keys.current_signing_key.verifying_key ::
            (get_current_signing_key now r).1.keys.expired_keys.map
              (fun k => k.verifying_key) from rfl]
      rw [hrot]
      exact (resolvable_view_iff _ _ _).mpr hnew2

/-- Witness for C10: a fresh repository (lifetime 100, created at time 0)
observed at time 200 rotates; the new key id 1 differs from the old id 0 and
id 0 stays resolvable. -/
theorem claim_C10_key_lifecycle_witness :
    (SigningKey.generate (SigningKeyRepo.new 100 0).key_lifetime 200
        (SigningKeyRepo.new 100 0).fresh).key_id ≠
      (SigningKeyRepo.new 100 0).keys.current_signing_key.key_id ∧
    resolvable
      (verifying_key_repository (force_key_rotation 200 (SigningKeyRepo.new 100 0)))
      0 = true := by
  have h := claim_C10_key_lifecycle 200 (SigningKeyRepo.new 100 0)
  refine ⟨h.2.2.2.2.2.1 ?_, (h.2.2.2.2.2.2 0 (by decide)).1⟩
  intro k hk
  fin_cases hk
  decide

/-- C1: anchor selection in `verify_blob`.  Whenever the blob downloads and
decodes, `verify_consecutive_append_only` is invoked exactly with the anchor
computed by the `previous_hash` binding (and an anchor-computation error is
the result of `verify_blob`); at the starting epoch that anchor is the
previous hash decoded from the blob itself; for any later epoch the anchor
computation ignores the blob's self-reported previous hash entirely, fails
with `SignatureNotFound(epoch-1)` when no signature is stored at `epoch-1`,
propagates the verification error when the stored signature is invalid, and
otherwise produces the digest of the stored, re-verified signature. -/
theorem claim_C1_anchor (akd : AkdEnv) (st : AuditorState)
    (blob : SerializableAuditBlobName) (info : NamespaceInfo)
    (audit_blob : AuditBlob) (end_epoch : Epoch)
    (previous_hash_from_blob end_hash : Digest) (proof : Proof)
    (hget : akd.get_proof blob = some audit_blob)
    (hdec : akd.decode audit_blob =
      some (end_epoch, previous_hash_from_blob, end_hash, proof)) :
    (∀ anchor,
        compute_previous_hash st blob info previous_hash_from_blob = .ok anchor →
        verify_blob akd st blob info =
          if akd.verify_consecutive_append_only info.configuration proof
              anchor end_hash end_epoch
          then .ok () else .error .AkdVerificationError) ∧
    (∀ e, compute_previous_hash st blob info previous_hash_from_blob = .error e →
        verify_blob akd st blob info = .error e) ∧
    (blob.epoch = info.starting_epoch →
        compute_previous_hash st blob info previous_hash_from_blob =
          .ok previous_hash_from_blob) ∧
    (info.starting_epoch < blob.epoch →
        (∀ other_hash,
            compute_previous_hash st blob info previous_hash_from_blob =
              compute_previous_hash st blob info other_hash) ∧
        (st.signature_storage (blob.epoch - 1) = none →
            compute_previous_hash st blob info previous_hash_from_blob =
              .error (.SignatureNotFound (blob.epoch - 1))) ∧
        (∀ s, st.signature_storage (blob.epoch - 1) = some s →
            (∀ e, s.verify (verifying_key_repository st.signing_key_repository) =
                .error e →
                compute_previous_hash st blob info previous_hash_from_blob =
                  .error (.VerifyError e)) ∧
            (s.verify (verifying_key_repository st.signing_key_repository) =
                .ok () →
                ∀ anchor,
                  compute_previous_hash st blob info previous_hash_from_blob =
                    .ok anchor →
                  anchor = s.digest))) := by
  refine ⟨?_, ?_, ?_, ?_⟩
  · intro anchor ha
    simp only [verify_blob, hget, hdec, ha, bind, Except.bind]
  · intro e he
    simp only [verify_blob, hget, hdec, he, bind, Except.bind]
  · intro h
    unfold compute_previous_hash
    rw [if_pos h]
  · intro h
    have hne : ¬ blob.epoch = info.starting_epoch := by
      intro heq
      rw [heq] at h
      exact Nat.lt_irrefl _ h
    refine ⟨?_, ?_, ?_⟩
    · intro other_hash
      unfold compute_previous_hash
      rw [if_neg hne, if_neg hne]
    · intro hnone
      simp only [compute_previous_hash, get_and_verify_signature, if_neg hne,
        hnone]
    · intro s hsome
      constructor
      · intro e hv
        simp only [compute_previous_hash, get_and_verify_signature, if_neg hne,
          hsome, hv]
      · intro hv anchor ha
        simp only [compute_previous_hash, get_and_verify_signature, if_neg hne,
          hsome, hv] at ha
        unfold EpochSignature.epoch_root_hash at ha
        by_cases hlen : s.digest.length = 32
        · rw [if_pos hlen] at ha
          injection ha with ha
          exact ha.symm
        · rw [if_neg hlen] at ha
          exact absurd ha (by simp)

/-- Witness for C1 at the starting epoch of a concrete environment: the
anchor is the decoded previous hash, and the blob verifies. -/
theorem claim_C1_anchor_witness :
    compute_previous_hash example_state0 example_blob example_info
        (List.replicate 32 0) = .ok (List.replicate 32 0) ∧
    verify_blob example_env example_state0 example_blob example_info =
      .ok () := by
  have h := claim_C1_anchor example_env example_state0 example_blob example_info
    0 0 (List.replicate 32 0) (List.replicate 32 7) 0 rfl rfl
  refine ⟨h.2.2.1 rfl, ?_⟩
  rw [h.1 (List.replicate 32 0) (h.2.2.1 rfl)]
  rfl

/-- The two branches of `handle_audit_failure` collapse to one update with
`failure_status`. -/
theorem handle_audit_failure_eq (st : AuditorState) (info : NamespaceInfo)
    (e : AuditError) :
    handle_audit_failure st info e =
      match update_namespace st.namespace_repository
          (info.update_status (failure_status e)) with
      | .ok m => .ok { st with namespace_repository := m }
      | .error err => .error err := by
  cases e <;> rfl

/-- C4: failure handling in the audit cycle.  When processing a blob fails,
`handle_audit_failure` writes `SignatureLost` for a `SignatureNotFound`
error and `SignatureVerificationFailed` for every other audit error (leaving
signatures and keys untouched); the cycle's blob loop then stops with the
error outcome, an erroring cycle yields the error result, and the worker
loop exits after an erroring cycle without running further cycles. -/
theorem claim_C4_failure_states (st : AuditorState) (info : NamespaceInfo)
    (e : AuditError)
    (hpresent : (st.namespace_repository info.name).isSome = true) :
    (∃ st2, handle_audit_failure st info e = .ok st2 ∧
        st2.namespace_repository info.name =
          some (info.update_status (failure_status e)) ∧
        st2.signing_key_repository = st.signing_key_repository ∧
        st2.signature_storage = st.signature_storage) ∧
    (∀ k, e = .SignatureNotFound k → failure_status e = .SignatureLost) ∧
    ((∀ k, e ≠ .SignatureNotFound k) →
        failure_status e = .SignatureVerificationFailed) ∧
    (∀ akd now blob rest,
        process_audit_request akd now st blob info = .error e →
        ∃ st2, handle_audit_failure st info e = .ok st2 ∧
          process_blob_list akd now st info (blob :: rest) = (st2, true)) ∧
    (∀ akd now namespace_name,
        get_namespace_info st.namespace_repository namespace_name = some info →
        info.status.is_active = true →
        (process_blob_list akd now st info
            (poll_for_new_epochs akd info)).2 = true →
        (run_audit_cycle akd now st namespace_name).2 = none) ∧
    (∀ akd now namespace_name (st0 : AuditorState) (fuel : Nat),
        (run_audit_cycle akd now st0 namespace_name).2 = none →
        run_worker akd now (fuel + 1) st0 namespace_name =
          (run_audit_cycle akd now st0 namespace_name).1) := by
  obtain ⟨i0, hi0⟩ := Option.isSome_iff_exists.mp hpresent
  have hupd : update_namespace st.namespace_repository
      (info.update_status (failure_status e)) =
      .ok (fun n => if n = info.name then
        some (info.update_status (failure_status e))
        else st.namespace_repository n) := by
    unfold update_namespace
    rw [show (info.update_status (failure_status e)).name = info.name from rfl,
      hi0]
  have hhandle : handle_audit_failure st info e =
      .ok { st with namespace_repository := fun n =>
        if n = info.name then some (info.update_status (failure_status e))
        else st.namespace_repository n } := by
    rw [handle_audit_failure_eq, hupd]
  refine ⟨⟨_, hhandle, by simp, rfl, rfl⟩, ?_, ?_, ?_, ?_, ?_⟩
  · intro k hk
    rw [hk]
    rfl
  · intro hk
    cases e with
    | SignatureNotFound k => exact absurd rfl (hk k)
    | _ => rfl
  · intro akd now blob rest hproc
    refine ⟨_, hhandle, ?_⟩
    simp only [process_blob_list, hproc, hhandle]
  · intro akd now namespace_name hget hactive hflag
    have hget2 : st.namespace_repository namespace_name = some info := hget
    simp [run_audit_cycle, get_namespace_info, hget2, hactive, hflag]
  · intro akd now namespace_name st0 fuel h2
    rcases hp : run_audit_cycle akd now st0 namespace_name with ⟨st2, res⟩
    rw [hp] at h2
    simp only at h2
    subst h2
    simp [run_worker, hp]

/-- Witness for C4: a `SignatureNotFound` failure writes `SignatureLost` for
the registered namespace. -/
theorem claim_C4_failure_states_witness :
    ∃ st2, handle_audit_failure example_state0 example_info
        (.SignatureNotFound 3) = .ok st2 ∧
      st2.namespace_repository example_info.name =
        some (example_info.update_status .SignatureLost) := by
  have h := claim_C4_failure_states example_state0 example_info
    (.SignatureNotFound 3) rfl
  obtain ⟨st2, h1, h2, _⟩ := h.1
  exact ⟨st2, h1, h2⟩

/-! ## Invariant machinery for claim C2 -/

/-- `EpochSignature::sign` always succeeds for the default ciphersuite. -/
theorem sign_ok (info : NamespaceInfo) (epoch : Epoch) (d : Digest) (now : Int)
    (key : SigningKey) :
    EpochSignature.sign info epoch d now key =
      .ok (signed_epoch_signature info epoch d now key) := rfl

/-- `sign_blob` in closed form. -/
theorem sign_blob_eq (now : Int) (st : AuditorState)
    (blob : SerializableAuditBlobName) (info : NamespaceInfo) :
    sign_blob now st blob info =
      .ok { st with
        signing_key_repository :=
          (get_current_signing_key now st.signing_key_repository).1
        signature_storage := fun e =>
          if e = blob.epoch then
            some (signed_epoch_signature info blob.epoch blob.current_hash now
              (get_current_signing_key now st.signing_key_repository).2)
          else st.signature_storage e } := by
  simp [sign_blob, sign_ok]

/-- All view entries of a generator-produced repository carry their id as
public key. -/
theorem view_standard (r : SigningKeyRepo) (hk : keys_standard r) :
    ∀ vk ∈ verifying_key_repository r, vk.verifying_key = vk.key_id := by
  intro vk hvk
  unfold verifying_key_repository at hvk
  rcases List.mem_cons.mp hvk with h | h
  · rw [h]
    exact hk _ (List.mem_cons_self _ _)
  · rcases List.mem_map.mp h with ⟨k, hkmem, hvk2⟩
    rw [← hvk2]
    exact hk k (List.mem_cons.mpr (Or.inr hkmem))

/-- A well-signed signature verifies against the repository view. -/
theorem verify_of_well_signed (r : SigningKeyRepo) (s : EpochSignature)
    (hk : keys_standard r) (hs : sig_well_signed r s) :
    s.verify (verifying_key_repository r) = .ok () := by
  cases s with
  | V1 v =>
    obtain ⟨hc, hpub, hmsg, k, hkmem, hkid⟩ := hs
    have hres : resolvable (verifying_key_repository r) v.key_id = true := by
      unfold verifying_key_repository
      rw [resolvable_view_iff]
      rcases List.mem_cons.mp hkmem with h | h
      · left
        rw [← h]
        exact hkid
      · right
        exact ⟨k, h, hkid⟩
    cases hlook : lookup_verifying_key (verifying_key_repository r) v.key_id with
    | none =>
      exfalso
      unfold resolvable at hres
      rw [hlook] at hres
      simp at hres
    | some vk =>
      obtain ⟨hmem, hvkid⟩ := lookup_verifying_key_spec _ _ _ hlook
      have hvv : vk.verifying_key = vk.key_id := view_standard r hk vk hmem
      have hcond : v.signature.signer_public = vk.verifying_key :=
        hpub.trans (hvv.trans hvkid).symm
      simp only [EpochSignature.verify, EpochSignature.signing_key_id, hlook]
      unfold EpochSignatureV1.verify
      rw [show v.to_message.to_vec = .ok v.to_message from by
        unfold EpochSignedMessage.to_vec EpochSignatureV1.to_message
        rw [hc]]
      simp [hcond, hmsg]

/-- `get_current_signing_key` keeps keys generator-produced. -/
theorem keys_standard_get_current (now : Int) (r : SigningKeyRepo)
    (h : keys_standard r) :
    keys_standard (get_current_signing_key now r).1 := by
  cases hexp : r.keys.current_signing_key.is_expired now with
  | false => simpa [get_current_signing_key, hexp] using h
  | true =>
    intro k hk
    simp [get_current_signing_key, hexp, SigningKeyRepo.all_keys] at hk
    rcases hk with rfl | hk | rfl
    · rfl
    · exact h k (List.mem_cons.mpr (Or.inr hk))
    · exact h _ (List.mem_cons_self _ _)

/-- The key `get_current_signing_key` returns is held by the resulting
repository. -/
theorem current_key_mem (now : Int) (r : SigningKeyRepo) :
    (get_current_signing_key now r).2 ∈
      (get_current_signing_key now r).1.all_keys := by
  cases hexp : r.keys.current_signing_key.is_expired now <;>
    simp [get_current_signing_key, hexp, SigningKeyRepo.all_keys]

/-- The key `get_current_signing_key` returns is generator-produced. -/
theorem current_key_standard (now : Int) (r : SigningKeyRepo)
    (h : keys_standard r) :
    (get_current_signing_key now r).2.secret =
      (get_current_signing_key now r).2.key_id := by
  cases hexp : r.keys.current_signing_key.is_expired now with
  | false =>
    simp only [get_current_signing_key, hexp, Bool.false_eq_true, if_false]
    exact h _ (List.mem_cons_self _ _)
  | true =>
    simp [get_current_signing_key, hexp, SigningKey.generate]

/-- Held key ids survive `get_current_signing_key`. -/
theorem key_ids_get_current (now : Int) (r : SigningKeyRepo) (key_id : Nat)
    (h : ∃ k ∈ r.all_keys, k.key_id = key_id) :
    ∃ k ∈ (get_current_signing_key now r).1.all_keys, k.key_id = key_id := by
  cases hexp : r.keys.current_signing_key.is_expired now with
  | false => simpa [get_current_signing_key, hexp] using h
  | true =>
    obtain ⟨k, hk, hid⟩ := h
    simp only [SigningKeyRepo.all_keys, List.mem_cons] at hk
    rcases hk with rfl | hk
    · exact ⟨r.keys.current_signing_key, by
        simp [get_current_signing_key, hexp, SigningKeyRepo.all_keys], hid⟩
    · exact ⟨k, by
        simp [get_current_signing_key, hexp, SigningKeyRepo.all_keys, hk], hid⟩

/-- Held key ids survive `force_key_rotation` (the rotated key keeps its id
through `expire`). -/
theorem key_ids_force (now : Int) (r : SigningKeyRepo) (key_id : Nat)
    (h : ∃ k ∈ r.all_keys, k.key_id = key_id) :
    ∃ k ∈ (force_key_rotation now r).all_keys, k.key_id = key_id := by
  obtain ⟨k, hk, hid⟩ := h
  simp only [SigningKeyRepo.all_keys, List.mem_cons] at hk
  rcases hk with rfl | hk
  · exact ⟨r.keys.current_signing_key.expire now, by
      simp [force_key_rotation, SigningKeyRepo.all_keys], hid⟩
  · exact ⟨k, by
      simp [force_key_rotation, SigningKeyRepo.all_keys, hk], hid⟩

/-- `force_key_rotation` keeps keys generator-produced. -/
theorem keys_standard_force (now : Int) (r : SigningKeyRepo)
    (h : keys_standard r) : keys_standard (force_key_rotation now r) := by
  intro k hk
  simp [force_key_rotation, SigningKeyRepo.all_keys] at hk
  rcases hk with rfl | hk | rfl
  · rfl
  · exact h k (List.mem_cons.mpr (Or.inr hk))
  · exact h r.keys.current_signing_key (List.mem_cons_self _ _)

/-- Well-signedness is monotone along id-preserving repository changes. -/
theorem sig_well_signed_mono (r r2 : SigningKeyRepo)
    (hids : ∀ key_id, (∃ k ∈ r.all_keys, k.key_id = key_id) →
      ∃ k ∈ r2.all_keys, k.key_id = key_id)
    (s : EpochSignature) (h : sig_well_signed r s) : sig_well_signed r2 s := by
  cases s with
  | V1 v =>
    obtain ⟨hc, hp, hm, hk⟩ := h
    exact ⟨hc, hp, hm, hids _ hk⟩

/-- `sign_blob` preserves the audit-loop invariant. -/
theorem storeInv_sign_blob (now : Int) (st st2 : AuditorState)
    (blob : SerializableAuditBlobName) (info : NamespaceInfo)
    (h : sign_blob now st blob info = .ok st2) (hinv : StoreInv st) :
    StoreInv st2 := by
  rw [sign_blob_eq] at h
  injection h with h
  subst h
  obtain ⟨hk, hs⟩ := hinv
  refine ⟨keys_standard_get_current now _ hk, ?_⟩
  intro e s hse
  dsimp only at hse ⊢
  by_cases he : e = blob.epoch
  · rw [if_pos he] at hse
    injection hse with hse
    subst hse
    exact ⟨rfl, current_key_standard now st.signing_key_repository hk, rfl,
      (get_current_signing_key now st.signing_key_repository).2,
      current_key_mem now st.signing_key_repository, rfl⟩
  · rw [if_neg he] at hse
    exact sig_well_signed_mono _ _ (key_ids_get_current now _) s (hs e s hse)

/-- `process_audit_request` preserves the audit-loop invariant. -/
theorem storeInv_process (akd : AkdEnv) (now : Int) (st st2 : AuditorState)
    (blob : SerializableAuditBlobName) (info : NamespaceInfo)
    (h : process_audit_request akd now st blob info = .ok st2)
    (hinv : StoreInv st) : StoreInv st2 := by
  unfold process_audit_request at h
  split at h
  · injection h with h
    subst h
    exact hinv
  · split at h
    · simp at h
    · injection h with h
      subst h
      exact hinv
    · split at h
      · simp at h
      · exact storeInv_sign_blob now st st2 blob info h hinv

/-- `handle_audit_failure` preserves the audit-loop invariant. -/
theorem storeInv_handle (st st2 : AuditorState) (info : NamespaceInfo)
    (e : AuditError) (h : handle_audit_failure st info e = .ok st2)
    (hinv : StoreInv st) : StoreInv st2 := by
  rw [handle_audit_failure_eq] at h
  split at h
  · injection h with h
    subst h
    exact hinv
  · simp at h

/-- The cycle's blob loop preserves the audit-loop invariant. -/
theorem storeInv_blob_list (akd : AkdEnv) (now : Int) (info : NamespaceInfo) :
    ∀ (blobs : List SerializableAuditBlobName) (st : AuditorState),
      StoreInv st → StoreInv (process_blob_list akd now st info blobs).1 := by
  intro blobs
  induction blobs with
  | nil => intro st h; exact h
  | cons blob rest ih =>
    intro st h
    cases hp : process_audit_request akd now st blob info with
    | error e =>
      cases hh : handle_audit_failure st info e with
      | ok stf =>
        simpa [process_blob_list, hp, hh] using
          storeInv_handle st stf info e hh h
      | error err => simpa [process_blob_list, hp, hh] using h
    | ok st2 =>
      have h2 := storeInv_process akd now st st2 blob info hp h
      cases hu : update_namespace st2.namespace_repository
          (info.update_last_verified_epoch blob.epoch) with
      | ok m =>
        simp only [process_blob_list, hp, hu]
        exact ih _ h2
      | error err =>
        simpa [process_blob_list, hp, hu] using h2

/-- A full audit cycle preserves the audit-loop invariant. -/
theorem storeInv_cycle (akd : AkdEnv) (now : Int) (st : AuditorState)
    (namespace_name : String) (h : StoreInv st) :
    StoreInv (run_audit_cycle akd now st namespace_name).1 := by
  cases hg : get_namespace_info st.namespace_repository namespace_name with
  | none => simpa [run_audit_cycle, hg] using h
  | some info =>
    cases ha : info.status.is_active with
    | false => simpa [run_audit_cycle, hg, ha] using h
    | true =>
      have hb := storeInv_blob_list akd now info
        (poll_for_new_epochs akd info) st h
      by_cases hf : (process_blob_list akd now st info
          (poll_for_new_epochs akd info)).2 = true
      · simpa [run_audit_cycle, hg, ha, hf] using hb
      · simpa [run_audit_cycle, hg, ha, hf] using hb

/-- The initial worker state satisfies the audit-loop invariant. -/
theorem storeInv_init (key_lifetime now : Int) (m : NamespaceRepoMap) :
    StoreInv
      { namespace_repository := m
        signing_key_repository := SigningKeyRepo.new key_lifetime now
        signature_storage := fun _ => none } := by
  constructor
  · intro k hk
    simp only [SigningKeyRepo.new, SigningKeyRepo.all_keys, List.mem_cons,
      List.not_mem_nil, or_false] at hk
    subst hk
    rfl
  · intro e s hs
    simp at hs

/-- Every reachable worker state satisfies the audit-loop invariant. -/
theorem reachable_storeInv (st : AuditorState) (h : Reachable st) :
    StoreInv st := by
  induction h with
  | init key_lifetime now m => exact storeInv_init key_lifetime now m
  | sign now st st2 blob info _ hsig ih =>
    exact storeInv_sign_blob now st st2 blob info hsig ih
  | cycle akd now st namespace_name _ ih =>
    exact storeInv_cycle akd now st namespace_name ih
  | rotate now st _ ih =>
    exact ⟨keys_standard_force now st.signing_key_repository ih.1,
      fun e s hs => sig_well_signed_mono _ _
        (fun key_id => key_ids_force now st.signing_key_repository key_id) s
        (ih.2 e s hs)⟩

/-- C2: in every state reachable by the audit loop, every signature held by
the per-namespace signature repository verifies against the signing-key
repository's verifying-key view. -/
theorem claim_C2_stored_signatures_verify (st : AuditorState)
    (h : Reachable st) (e : Epoch) (s : EpochSignature)
    (hs : st.signature_storage e = some s) :
    s.verify (verifying_key_repository st.signing_key_repository) = .ok () :=
  verify_of_well_signed st.signing_key_repository s
    (reachable_storeInv st h).1 ((reachable_storeInv st h).2 e s hs)

/-- Witness for C2: the state reached by signing epoch 0 from a fresh worker
state holds a signature at epoch 0, and it verifies. -/
theorem claim_C2_stored_signatures_verify_witness :
    example_sig.verify
      (verifying_key_repository example_state1.signing_key_repository) =
      .ok () :=
  claim_C2_stored_signatures_verify example_state1
    (Reachable.sign 1 example_state0 example_state1 example_blob example_info
      (Reachable.init 100 0 example_state0.namespace_repository) rfl)
    0 example_sig rfl

end AkdWatch
